import Mathlib

/-!
Verification development for the retail spatial interaction model
(`retailmodel.py`): a production-constrained, entropy-maximizing model that
allocates each demand zone's expenditure across stores.

The embedding is shallow: Python objects become structures, methods become
Lean functions, and methods that assign attributes on `self` are modelled by
state passing (the function returns the updated object next to its value).
Python floats are modelled by exact reals (`ℝ`); `a ** b` on floats is real
rpow, `np.exp` is `Real.exp`.  Python `dict` parameter tables are association
lists whose lookup returns `Option`, and a failed lookup (Python `KeyError`)
or a division by integer zero (Python `ZeroDivisionError`) is threaded with
`Except`.
-/

noncomputable section

namespace RetailModel

/-- Demand zone record (`DemandZones.__init__`, retailmodel.py lines 106-117).
`zone_flow` models the attribute that the single-zone branch of `comp_flow`
assigns onto `self` (line 192); it does not exist at construction (`none`). -/
structure DemandZones where
  OA11CD : String
  expenditure : ℝ
  oac : String
  c_easting : ℝ
  c_northing : ℝ
  zone_flow : Option (List ℝ) := none

/-- The Flows Matrix built by the list branch of `comp_flow` (lines 202-231):
a pandas DataFrame whose columns are the store names, whose first row is
`Brand_Name`, whose middle rows are one expenditure row per zone (labelled by
the zone's `OA11CD`), and whose last row is `Store_Revenue`. -/
structure FlowsMatrix where
  columns : List String
  brand_row : List String
  zone_rows : List (String × List ℝ)
  revenue_row : List ℝ

/-- Store record (`Stores.__init__`, retailmodel.py lines 12-25).  `footage`
goes through `int(...)`, hence `ℤ`.  The derived `location` list duplicates
`easting`/`northing` and is omitted.  `demand_zone` and `flow` model the
attributes that `dist_to_zone` (line 43) and `get_store_revenue` (line 61)
assign onto `self`; neither exists at construction (`none`). -/
structure Stores where
  name : String
  brand : String
  footage : ℤ
  easting : ℝ
  northing : ℝ
  demand_zone : Option DemandZones := none
  flow : Option FlowsMatrix := none

/-- Embeds `DemandZones.dist_to_store` (lines 128-139):
`abs(((self.c_easting - store.easting)**2 + (self.c_northing -
store.northing)**2)**0.5)/1000`.  `** 2` is integer power, `** 0.5` is float
power (real rpow). -/
def DemandZones.dist_to_store (z : DemandZones) (s : Stores) : ℝ :=
  |((z.c_easting - s.easting) ^ 2 + (z.c_northing - s.northing) ^ 2)
      ^ ((1 : ℝ) / 2)| / 1000

/-- Embeds `Stores.dist_to_zone` (lines 33-46).  The method first executes
`self.demand_zone = demand_zone`, mutating the receiver; the model returns
the updated store next to the distance value. -/
def Stores.dist_to_zone (s : Stores) (z : DemandZones) : Stores × ℝ :=
  ({ s with demand_zone := some z },
    |((s.easting - z.c_easting) ^ 2 + (s.northing - z.c_northing) ^ 2)
        ^ ((1 : ℝ) / 2)| / 1000)

/-- Model of `flows.loc['Brand_Name'][store]`: the brand row entry of column `c`.
pandas raises on an absent column label; the model is only applied to labels
present in `columns`, where `getD`'s default is never used. -/
def FlowsMatrix.locBrand (m : FlowsMatrix) (c : String) : String :=
  m.brand_row.getD (m.columns.indexOf c) ""

/-- Model of `flows.loc['Store_Revenue'][name]`: the revenue row entry of column `c`
(same pandas caveat as `FlowsMatrix.locBrand`). -/
def FlowsMatrix.locRevenue (m : FlowsMatrix) (c : String) : ℝ :=
  m.revenue_row.getD (m.columns.indexOf c) 0

/-- Embeds `Stores.get_store_revenue` (lines 49-62).  The method first executes
`self.flow = flows`, mutating the receiver, then returns
`self.flow.loc['Store_Revenue'][self.name]`. -/
def Stores.get_store_revenue (s : Stores) (flows : FlowsMatrix) :
    Stores × ℝ :=
  ({ s with flow := some flows }, flows.locRevenue s.name)

/-- Embeds `Brands.comp_brand_revenue` (lines 81-95): iterates over
`flows.columns[1:]` — the tail of the column list, skipping the first store
column — and accumulates `flows.loc['Store_Revenue'][store]` whenever
`flows.loc['Brand_Name'][store] == brand`. -/
def Brands.comp_brand_revenue (brand : String) (flows : FlowsMatrix) : ℝ :=
  flows.columns.tail.foldl
    (fun acc store =>
      if flows.locBrand store = brand then acc + flows.locRevenue store
      else acc) 0

/-- Brand revenue as the spec states it (spec §4.4): the sum of
`Store_Revenue` over ALL columns whose brand row equals `brand`.  Written
from the spec's words, to be compared with `Brands.comp_brand_revenue`. -/
def comp_brand_revenue_spec (brand : String) (flows : FlowsMatrix) : ℝ :=
  flows.columns.foldl
    (fun acc store =>
      if flows.locBrand store = brand then acc + flows.locRevenue store
      else acc) 0

/-- The exceptions the Python code can raise while computing flows:
`keyError k` is `KeyError: k` from a failed `dict` lookup (`alphas[...]` or
`betas[...]`), `zeroDivisionError` is Python's `ZeroDivisionError` from
`1/a` when `a` is still the integer `0` (empty store list). -/
inductive PyErr where
  | keyError (key : String)
  | zeroDivisionError
deriving DecidableEq

/-- One summand of the `comp_ai` accumulator (lines 163-166):
`(store.footage ** alphas[store.brand]) * np.exp(-(beta * dist))`, with the
attractiveness table already resolved to a total function `al`. -/
def store_term (z : DemandZones) (beta : ℝ) (al : String → ℝ)
    (s : Stores) : ℝ :=
  (s.footage : ℝ) ^ al s.brand * Real.exp (-(beta * z.dist_to_store s))

/-- The balancing-factor denominator: the value of the accumulator `a` after
the `comp_ai` loop (lines 161-167), in exact real arithmetic. -/
def comp_ai_denom (z : DemandZones) (stores : List Stores) (beta : ℝ)
    (al : String → ℝ) : ℝ :=
  (stores.map (store_term z beta al)).sum

/-- Resolve an association-list parameter table to a total function (used
only where every relevant key is present, so the default is never hit). -/
def alf (tbl : List (String × ℝ)) : String → ℝ :=
  fun k => (tbl.lookup k).getD 0

/-- The `comp_ai` accumulation loop (lines 161-167) with dictionary lookups:
processing stores in order, the first store whose brand is missing from
`alphas` raises `KeyError` (as `alphas[store.brand]` does). -/
def comp_ai_sum (z : DemandZones) (beta : ℝ) (alphas : List (String × ℝ)) :
    List Stores → Except PyErr ℝ
  | [] => .ok 0
  | s :: ss =>
    match alphas.lookup s.brand with
    | none => .error (.keyError s.brand)
    | some y =>
      match comp_ai_sum z beta alphas ss with
      | .error e => .error e
      | .ok a =>
          .ok ((s.footage : ℝ) ^ y * Real.exp (-(beta * z.dist_to_store s))
            + a)

/-- Embeds `DemandZones.comp_ai` (lines 143-168): run the accumulation loop, then
return `1/a`.  With an empty store list `a` is the Python integer `0` and
`1/a` raises `ZeroDivisionError`.  With a nonempty list `a` is a numpy
float; if it is exactly `0.0` (degenerate zero-floorspace supply) numpy's
`1/a` silently evaluates to `inf` — no exception — and Lean's `1/0 = 0`
stands in for that silently returned value here; `comp_ai_outcome` below
records this case explicitly. -/
def DemandZones.comp_ai (z : DemandZones) (stores : List Stores) (beta : ℝ)
    (alphas : List (String × ℝ)) : Except PyErr ℝ :=
  match comp_ai_sum z beta alphas stores with
  | .error e => .error e
  | .ok a => if stores.isEmpty then .error .zeroDivisionError else .ok (1 / a)

/-- The observable outcomes of a `comp_ai` call under Python/numpy
semantics. -/
inductive AiOutcome where
  | value (v : ℝ)
  | raisedKeyError (key : String)
  | raisedZeroDivision
  | silentInf

open scoped Classical in
/-- Python/numpy outcome of `DemandZones.comp_ai` (lines 161-168): a missing
brand raises `KeyError` at the first offending store; an empty store list
leaves `a` as the integer `0`, so `1/a` raises a generic
`ZeroDivisionError` (which carries no zone identification); a nonempty list
whose summed term is exactly zero leaves `a` as the numpy float `0.0`, and
`1/a` then silently returns `inf` — no exception is raised and no
"no viable supply" error exists anywhere in the code. -/
def comp_ai_outcome (z : DemandZones) (stores : List Stores) (beta : ℝ)
    (alphas : List (String × ℝ)) : AiOutcome :=
  match stores.find? (fun s => (alphas.lookup s.brand).isNone) with
  | some s => .raisedKeyError s.brand
  | none =>
    if stores.isEmpty then .raisedZeroDivision
    else if comp_ai_denom z stores beta (alf alphas) = 0 then .silentInf
    else .value (1 / comp_ai_denom z stores beta (alf alphas))

/-- One row of the flow loop (lines 213-218): for each store in order,
`f = Ai * O * (store.footage ** alphas[store.brand]) * np.exp(-(betas[oac] *
dist))`.  The `alphas[store.brand]` lookup is performed again here (line
214) and would raise `KeyError`, though `comp_ai` has already vetted every
brand by this point. -/
def zone_row (z : DemandZones) (Ai : ℝ) (stores : List Stores) (beta : ℝ)
    (alphas : List (String × ℝ)) : Except PyErr (List ℝ) :=
  match stores with
  | [] => .ok []
  | s :: ss =>
    match alphas.lookup s.brand with
    | none => .error (.keyError s.brand)
    | some y =>
      match zone_row z Ai ss beta alphas with
      | .error e => .error e
      | .ok row =>
          .ok ((Ai * z.expenditure * (s.footage : ℝ) ^ y
            * Real.exp (-(beta * z.dist_to_store s))) :: row)

/-- The zone loop of the list branch of `comp_flow` (lines 209-219): for
each zone in order, look up `betas[zone.oac]` (KeyError on a missing
classification), compute `Ai` via `comp_ai`, then build the zone's flow
row. -/
def flows_rows (stores : List Stores) (alphas betas : List (String × ℝ)) :
    List DemandZones → Except PyErr (List (List ℝ))
  | [] => .ok []
  | z :: zs =>
    match betas.lookup z.oac with
    | none => .error (.keyError z.oac)
    | some beta =>
      match z.comp_ai stores beta alphas with
      | .error e => .error e
      | .ok Ai =>
        match zone_row z Ai stores beta alphas with
        | .error e => .error e
        | .ok row =>
          match flows_rows stores alphas betas zs with
          | .error e => .error e
          | .ok rows => .ok (row :: rows)

/-- Embeds `revenue = [sum(x) for x in zip(*flows)]` (line 228): column-wise sums
of the zone rows; Python's `zip` truncates to the shortest row (all rows
here have one entry per store) and yields nothing when `flows` is empty. -/
def colSums : List (List ℝ) → List ℝ
  | [] => []
  | [r] => r
  | r :: rs => List.zipWith (· + ·) r (colSums rs)

/-- The list branch of `DemandZones.comp_flow` (lines 202-231): build the
brand-name row, one flow row per zone, the store-name column labels, the
`Store_Revenue` row of column sums, and assemble the DataFrame.  (The
single-zone branch is `comp_flow_zone`; the final `else` branch of the
source raises a `DataType Error` and is unreachable under these typed
arguments.) -/
def DemandZones.comp_flow (zones : List DemandZones) (stores : List Stores)
    (alphas betas : List (String × ℝ)) : Except PyErr FlowsMatrix :=
  match flows_rows stores alphas betas zones with
  | .error e => .error e
  | .ok rows =>
      .ok { columns := stores.map (·.name)
            brand_row := stores.map (·.brand)
            zone_rows := List.zip (zones.map (·.OA11CD)) rows
            revenue_row := colSums rows }

/-- The single-zone branch of `DemandZones.comp_flow` (lines 191-201): the
method assigns the computed row onto `self.zone_flow` and returns it; the
model returns the updated zone next to the row.  (In the source
`self.zone_flow = []` is assigned before `comp_ai` runs, so on an error the
receiver is left holding the empty list; the model keeps the pre-call
receiver in the error case, which no claim depends on.) -/
def comp_flow_zone (z : DemandZones) (stores : List Stores)
    (alphas betas : List (String × ℝ)) :
    Except PyErr (DemandZones × List ℝ) :=
  match betas.lookup z.oac with
  | none => .error (.keyError z.oac)
  | some beta =>
    match z.comp_ai stores beta alphas with
    | .error e => .error e
    | .ok Ai =>
      match zone_row z Ai stores beta alphas with
      | .error e => .error e
      | .ok row => .ok ({ z with zone_flow := some row }, row)

/-- The flow cell of zone `z` and store `s` as the flow loop computes it,
with the balancing factor written out: `(1/D) * O * W * E`. -/
def flow_cell (z : DemandZones) (stores : List Stores) (beta : ℝ)
    (al : String → ℝ) (s : Stores) : ℝ :=
  1 / comp_ai_denom z stores beta al * z.expenditure
    * (s.footage : ℝ) ^ al s.brand * Real.exp (-(beta * z.dist_to_store s))

/-- Read a flow cell out of a `comp_flow` result: zone row `i`, store
column `j` (zero when the computation failed or an index is out of
range). -/
def mCell (r : Except PyErr FlowsMatrix) (i j : ℕ) : ℝ :=
  match r with
  | .error _ => 0
  | .ok m => ((m.zone_rows.getD i ("", [])).2).getD j 0

/-- Read the first entry of the flow row of a `comp_flow_zone` result
(zero when the computation failed or the row is empty). -/
def rowHead (r : Except PyErr (DemandZones × List ℝ)) : ℝ :=
  match r with
  | .error _ => 0
  | .ok p => p.2.getD 0 0

/-- The flow row the list branch computes for one zone, written with every
table lookup resolved: `flow_cell` at each store in order. -/
def rowVal (z : DemandZones) (stores : List Stores)
    (alphas betas : List (String × ℝ)) : List ℝ :=
  stores.map (flow_cell z stores (alf betas z.oac) (alf alphas))

lemma comp_ai_sum_ok (z : DemandZones) (beta : ℝ)
    (alphas : List (String × ℝ)) (stores : List Stores)
    (h : ∀ s ∈ stores, (alphas.lookup s.brand).isSome) :
    comp_ai_sum z beta alphas stores =
      .ok (comp_ai_denom z stores beta (alf alphas)) := by
  induction stores with
  | nil => simp [comp_ai_sum, comp_ai_denom]
  | cons s ss ih =>
    obtain ⟨y, hy⟩ := Option.isSome_iff_exists.mp (h s (by simp))
    have ih' := ih (fun t ht => h t (List.mem_cons_of_mem _ ht))
    simp [comp_ai_sum, hy, ih', comp_ai_denom, store_term, alf]

lemma comp_ai_ok (z : DemandZones) (beta : ℝ) (alphas : List (String × ℝ))
    (stores : List Stores)
    (h : ∀ s ∈ stores, (alphas.lookup s.brand).isSome)
    (hne : stores ≠ []) :
    z.comp_ai stores beta alphas =
      .ok (1 / comp_ai_denom z stores beta (alf alphas)) := by
  cases stores with
  | nil => exact absurd rfl hne
  | cons s ss => simp [DemandZones.comp_ai, comp_ai_sum_ok _ _ _ _ h]

lemma zone_row_ok (z : DemandZones) (Ai : ℝ) (stores : List Stores)
    (beta : ℝ) (alphas : List (String × ℝ))
    (h : ∀ s ∈ stores, (alphas.lookup s.brand).isSome) :
    zone_row z Ai stores beta alphas =
      .ok (stores.map (fun s =>
        Ai * z.expenditure * (s.footage : ℝ) ^ (alf alphas s.brand)
          * Real.exp (-(beta * z.dist_to_store s)))) := by
  induction stores with
  | nil => simp [zone_row]
  | cons s ss ih =>
    obtain ⟨y, hy⟩ := Option.isSome_iff_exists.mp (h s (by simp))
    have ih' := ih (fun t ht => h t (List.mem_cons_of_mem _ ht))
    simp [zone_row, hy, ih', alf]

lemma flows_rows_ok (zones : List DemandZones) (stores : List Stores)
    (alphas betas : List (String × ℝ))
    (hbr : ∀ s ∈ stores, (alphas.lookup s.brand).isSome)
    (hoc : ∀ z ∈ zones, (betas.lookup z.oac).isSome)
    (hne : stores ≠ []) :
    flows_rows stores alphas betas zones =
      .ok (zones.map (fun z => rowVal z stores alphas betas)) := by
  induction zones with
  | nil => simp [flows_rows]
  | cons z zs ih =>
    obtain ⟨beta, hbeta⟩ := Option.isSome_iff_exists.mp (hoc z (by simp))
    have ih' := ih (fun t ht => hoc t (List.mem_cons_of_mem _ ht))
    simp only [flows_rows, hbeta, comp_ai_ok z beta alphas stores hbr hne,
      one_div,
      zone_row_ok z ((comp_ai_denom z stores beta (alf alphas))⁻¹) stores
        beta alphas hbr,
      ih', List.map_cons]
    simp [rowVal, flow_cell, alf, hbeta]

lemma comp_flow_ok (zones : List DemandZones) (stores : List Stores)
    (alphas betas : List (String × ℝ))
    (hbr : ∀ s ∈ stores, (alphas.lookup s.brand).isSome)
    (hoc : ∀ z ∈ zones, (betas.lookup z.oac).isSome)
    (hne : stores ≠ []) :
    DemandZones.comp_flow zones stores alphas betas =
      .ok { columns := stores.map (·.name)
            brand_row := stores.map (·.brand)
            zone_rows := List.zip (zones.map (·.OA11CD))
              (zones.map (fun z => rowVal z stores alphas betas))
            revenue_row :=
              colSums (zones.map (fun z => rowVal z stores alphas betas)) } := by
  simp [DemandZones.comp_flow, flows_rows_ok zones stores alphas betas hbr hoc hne]

lemma comp_flow_zone_ok (z : DemandZones) (stores : List Stores)
    (alphas betas : List (String × ℝ))
    (hbr : ∀ s ∈ stores, (alphas.lookup s.brand).isSome)
    (hoc : (betas.lookup z.oac).isSome)
    (hne : stores ≠ []) :
    comp_flow_zone z stores alphas betas =
      .ok ({ z with zone_flow := some (rowVal z stores alphas betas) },
        rowVal z stores alphas betas) := by
  obtain ⟨beta, hbeta⟩ := Option.isSome_iff_exists.mp hoc
  simp only [comp_flow_zone, hbeta, comp_ai_ok z beta alphas stores hbr hne,
    zone_row_ok _ _ _ _ _ hbr]
  simp [rowVal, flow_cell, alf, hbeta]

lemma flow_cell_eq_mul (z : DemandZones) (stores : List Stores) (beta : ℝ)
    (al : String → ℝ) (s : Stores) :
    flow_cell z stores beta al s =
      1 / comp_ai_denom z stores beta al * z.expenditure
        * store_term z beta al s := by
  simp [flow_cell, store_term]; ring

/-- Key algebraic fact behind the production constraint: when the
balancing-factor denominator is nonzero, the flow cells of one zone sum to
the zone's expenditure. -/
lemma rowVal_sum (z : DemandZones) (stores : List Stores)
    (alphas betas : List (String × ℝ))
    (hD : comp_ai_denom z stores (alf betas z.oac) (alf alphas) ≠ 0) :
    (rowVal z stores alphas betas).sum = z.expenditure := by
  unfold rowVal
  rw [List.map_congr_left (fun s _ => flow_cell_eq_mul z stores
    (alf betas z.oac) (alf alphas) s)]
  rw [List.sum_map_mul_left, ← comp_ai_denom]
  field_simp

lemma rowVal_length (z : DemandZones) (stores : List Stores)
    (alphas betas : List (String × ℝ)) :
    (rowVal z stores alphas betas).length = stores.length := by
  simp [rowVal]

lemma getD_map_lt {α β : Type} (l : List α) (f : α → β) (i : ℕ)
    (hi : i < l.length) (d : β) :
    (l.map f).getD i d = f (l.get ⟨i, hi⟩) := by
  simp [List.getD_eq_getElem?_getD, List.getElem?_eq_getElem,
    List.getElem?_map, hi]

lemma getD_zipWith_add (a b : List ℝ) (h : a.length = b.length) (j : ℕ) :
    (List.zipWith (· + ·) a b).getD j 0 = a.getD j 0 + b.getD j 0 := by
  induction a generalizing b j with
  | nil =>
    cases b with
    | nil => simp
    | cons y ys => simp at h
  | cons x xs ih =>
    cases b with
    | nil => simp at h
    | cons y ys =>
      cases j with
      | zero => simp
      | succ j => simpa using ih ys (by simpa using h) j

lemma colSums_length (rows : List (List ℝ)) (n : ℕ)
    (h : ∀ r ∈ rows, r.length = n) (hne : rows ≠ []) :
    (colSums rows).length = n := by
  induction rows with
  | nil => exact absurd rfl hne
  | cons r rs ih =>
    cases rs with
    | nil => simpa [colSums] using h r (by simp)
    | cons r2 rs2 =>
      have h2 := ih (fun t ht => h t (List.mem_cons_of_mem _ ht)) (by simp)
      simp [colSums, h2, h r (by simp)]

/-- Column sums read entrywise: entry `j` of `colSums rows` is the sum of
the `j`-th entries of the rows (for rows of uniform length). -/
lemma colSums_getD (rows : List (List ℝ)) (n : ℕ)
    (h : ∀ r ∈ rows, r.length = n) (j : ℕ) :
    (colSums rows).getD j 0 = (rows.map (fun r => r.getD j 0)).sum := by
  induction rows with
  | nil => simp [colSums]
  | cons r rs ih =>
    cases rs with
    | nil => simp [colSums]
    | cons r2 rs2 =>
      have hlen : (colSums (r2 :: rs2)).length = n :=
        colSums_length _ n (fun t ht => h t (List.mem_cons_of_mem _ ht))
          (by simp)
      have hr : r.length = n := h r (by simp)
      have := ih (fun t ht => h t (List.mem_cons_of_mem _ ht))
      simp only [colSums, getD_zipWith_add r _ (hr.trans hlen.symm) j, this,
        List.map_cons, List.sum_cons]

/-- Test fixture: a one-brand attractiveness table, exponent 1. -/
def alphas0 : List (String × ℝ) := [("BrandA", 1)]

/-- Test fixture: a one-class deterrence table, coefficient 1. -/
def betas0 : List (String × ℝ) := [("oac1", 1)]

/-- Test fixture: a zone at the origin with 1000 expenditure. -/
def z1000 : DemandZones :=
  { OA11CD := "Z1", expenditure := 1000, oac := "oac1",
    c_easting := 0, c_northing := 0 }

/-- Test fixture: a zone at the origin with zero expenditure. -/
def zPoor : DemandZones :=
  { OA11CD := "Z0", expenditure := 0, oac := "oac1",
    c_easting := 0, c_northing := 0 }

/-- Test fixture: a unit-floorspace store 1 km from the origin. -/
def sNear : Stores :=
  { name := "S1", brand := "BrandA", footage := 1,
    easting := 0, northing := 1000 }

/-- Test fixture: a unit-floorspace store 2 km from the origin, otherwise
identical to `sNear`. -/
def sFar : Stores :=
  { name := "S2", brand := "BrandA", footage := 1,
    easting := 0, northing := 2000 }

/-- Test fixture: a zero-floorspace store 1 km from the origin. -/
def sZero : Stores :=
  { name := "S0", brand := "BrandA", footage := 0,
    easting := 0, northing := 1000 }

lemma rpow_half_of_sq (x y : ℝ) (hy : 0 ≤ y) (h : y ^ 2 = x) :
    x ^ ((1 : ℝ) / 2) = y := by
  subst h
  rw [← Real.sqrt_eq_rpow]
  exact Real.sqrt_sq hy

/-- Evaluate `dist_to_store` at concrete coordinates whose squared offsets
sum to a perfect square of `1000 * d`. -/
lemma dist_eval (z : DemandZones) (s : Stores) (d : ℝ) (hd : 0 ≤ d)
    (h : (z.c_easting - s.easting) ^ 2 + (z.c_northing - s.northing) ^ 2
      = (1000 * d) ^ 2) :
    z.dist_to_store s = d := by
  unfold DemandZones.dist_to_store
  rw [h, rpow_half_of_sq _ (1000 * d) (by positivity) rfl,
    abs_of_nonneg (by positivity)]
  field_simp

lemma dist_z1000_sNear : z1000.dist_to_store sNear = 1 :=
  dist_eval _ _ 1 (by norm_num) (by norm_num [z1000, sNear])

lemma dist_z1000_sFar : z1000.dist_to_store sFar = 2 :=
  dist_eval _ _ 2 (by norm_num) (by norm_num [z1000, sFar])

/-- C1: for every non-empty list of zones and a store set whose
balancing-factor denominator is positive (at each zone), `comp_flow`
succeeds and each zone row of the produced flow matrix sums exactly to that
zone's expenditure — the production constraint, in exact real
arithmetic. -/
theorem comp_flow_production_constraint
    (zones : List DemandZones) (stores : List Stores)
    (alphas betas : List (String × ℝ))
    (hbr : ∀ s ∈ stores, (alphas.lookup s.brand).isSome)
    (hoc : ∀ z ∈ zones, (betas.lookup z.oac).isSome)
    (hzne : zones ≠ [])
    (hD : ∀ z ∈ zones,
      0 < comp_ai_denom z stores (alf betas z.oac) (alf alphas)) :
    ∃ M, DemandZones.comp_flow zones stores alphas betas = .ok M ∧
      ∀ i (hi : i < zones.length),
        ((M.zone_rows.getD i ("", [])).2).sum
          = (zones.get ⟨i, hi⟩).expenditure := by
  have hne : stores ≠ [] := by
    intro hempty
    obtain ⟨z, hz⟩ := List.exists_mem_of_ne_nil zones hzne
    have h0 := hD z hz
    rw [hempty] at h0
    simp [comp_ai_denom] at h0
  refine ⟨_, comp_flow_ok zones stores alphas betas hbr hoc hne, ?_⟩
  intro i hi
  rw [List.zip_map', getD_map_lt _ _ i hi]
  exact rowVal_sum _ _ _ _ (ne_of_gt (hD _ (List.get_mem zones i hi)))

/-- Witness for C1: one zone with expenditure 1000, one store 1 km away,
all parameters 1; the zone's row sums to 1000. -/
theorem comp_flow_production_constraint_witness :
    ∃ M, DemandZones.comp_flow [z1000] [sNear] alphas0 betas0 = .ok M ∧
      ((M.zone_rows.getD 0 ("", [])).2).sum = 1000 := by
  obtain ⟨M, hM, hsum⟩ :=
    comp_flow_production_constraint [z1000] [sNear] alphas0 betas0
      (by intro s hs; simp at hs; subst hs; simp [sNear, alphas0])
      (by intro z hz; simp at hz; subst hz; simp [z1000, betas0])
      (by simp)
      (by
        intro z hz; simp at hz; subst hz
        simp only [comp_ai_denom, store_term, List.map_cons, List.map_nil,
          List.sum_cons, List.sum_nil, add_zero]
        have : ((sNear.footage : ℝ)) ^ (alf alphas0 sNear.brand) = 1 := by
          simp [sNear, alphas0, alf]
        rw [this, one_mul]
        exact Real.exp_pos _)
  refine ⟨M, hM, ?_⟩
  have := hsum 0 (by norm_num)
  simpa [z1000] using this

/-- C9: `dist_to_store` returns the Euclidean distance between the zone
centroid and the store location divided by 1000, which is non-negative, and
for identical points it returns exactly zero (no domain error: `Real.sqrt`
and division are total here, mirroring that Python raises nothing on this
input). -/
theorem dist_to_store_contract (z : DemandZones) (s : Stores) :
    z.dist_to_store s
        = Real.sqrt ((z.c_easting - s.easting) ^ 2
            + (z.c_northing - s.northing) ^ 2) / 1000
      ∧ 0 ≤ z.dist_to_store s
      ∧ (z.c_easting = s.easting → z.c_northing = s.northing →
          z.dist_to_store s = 0) := by
  have hsq : (0 : ℝ) ≤ (z.c_easting - s.easting) ^ 2
      + (z.c_northing - s.northing) ^ 2 := by positivity
  have heq : z.dist_to_store s
      = Real.sqrt ((z.c_easting - s.easting) ^ 2
          + (z.c_northing - s.northing) ^ 2) / 1000 := by
    unfold DemandZones.dist_to_store
    rw [← Real.sqrt_eq_rpow, abs_of_nonneg (Real.sqrt_nonneg _)]
  refine ⟨heq, ?_, ?_⟩
  · rw [heq]; positivity
  · intro h1 h2
    rw [heq, h1, h2]
    simp

/-- Witness for C9: at coincident zone centroid and store location the
distance is exactly zero. -/
theorem dist_to_store_contract_witness :
    ({ OA11CD := "Z", expenditure := 1, oac := "o", c_easting := 5,
        c_northing := 7 } : DemandZones).dist_to_store
      { name := "S", brand := "B", footage := 1, easting := 5,
        northing := 7 } = 0 :=
  (dist_to_store_contract _ _).2.2 rfl rfl

/-- C10: the two independent distance implementations agree — the value
computed by `Stores.dist_to_zone` equals `DemandZones.dist_to_store` on the
same pair (distance is symmetric between the store-side and zone-side
embeddings). -/
theorem dist_to_zone_eq_dist_to_store (z : DemandZones) (s : Stores) :
    (s.dist_to_zone z).2 = z.dist_to_store s := by
  unfold Stores.dist_to_zone DemandZones.dist_to_store
  have h1 : (s.easting - z.c_easting) ^ 2 = (z.c_easting - s.easting) ^ 2 := by
    ring
  have h2 : (s.northing - z.c_northing) ^ 2
      = (z.c_northing - s.northing) ^ 2 := by ring
  rw [h1, h2]

/-- Test fixture: a flow matrix with two stores of the same brand, first
column revenue 10, second column revenue 20. -/
def mTwo : FlowsMatrix :=
  { columns := ["S1", "S2"]
    brand_row := ["BrandA", "BrandA"]
    zone_rows := [("Z1", [10, 20])]
    revenue_row := [10, 20] }

/-- C2, evaluated at the failing input: `comp_brand_revenue` iterates over
`columns[1:]`, so on a matrix whose first column also carries the requested
brand it returns 20 — omitting the first column's revenue — while the
claimed sum over ALL columns of that brand (the spec-side definition) is
30. -/
theorem comp_brand_revenue_skips_first_column :
    Brands.comp_brand_revenue "BrandA" mTwo = 20
      ∧ comp_brand_revenue_spec "BrandA" mTwo = 30 := by
  have hb1 : mTwo.locBrand "S1" = "BrandA" := rfl
  have hb2 : mTwo.locBrand "S2" = "BrandA" := rfl
  have hr1 : mTwo.locRevenue "S1" = 10 := rfl
  have hr2 : mTwo.locRevenue "S2" = 20 := rfl
  have hc : mTwo.columns = ["S1", "S2"] := rfl
  constructor
  · rw [Brands.comp_brand_revenue, hc]
    simp only [List.tail_cons, List.foldl_cons, List.foldl_nil, hb2, hr2,
      if_pos rfl]
    norm_num
  · rw [comp_brand_revenue_spec, hc]
    simp only [List.foldl_cons, List.foldl_nil, hb1, hb2, hr1, hr2,
      if_pos rfl]
    norm_num

/-- C3, evaluated at the failing inputs: on a degenerate zero-floorspace
store list the balancing-factor denominator is exactly zero and `comp_ai`
silently returns numpy `inf` (no exception, no mention of the zone); on an
empty store list it raises a bare `ZeroDivisionError` that identifies no
zone.  No "no viable supply" error exists anywhere in the code. -/
theorem comp_ai_no_viable_supply_behavior :
    comp_ai_outcome z1000 [sZero] 1 alphas0 = AiOutcome.silentInf
      ∧ comp_ai_outcome z1000 [] 1 alphas0
          = AiOutcome.raisedZeroDivision := by
  constructor
  · have hden : comp_ai_denom z1000 [sZero] 1 (alf alphas0) = 0 := by
      have : ((sZero.footage : ℝ)) ^ (alf alphas0 sZero.brand) = 0 := by
        have h1 : ((sZero.footage : ℝ)) = 0 := by simp [sZero]
        have h2 : alf alphas0 sZero.brand = 1 := by simp [sZero, alphas0, alf]
        rw [h1, h2, Real.rpow_one]
      simp [comp_ai_denom, store_term, this]
    have hfind : ([sZero].find?
        (fun s => (alphas0.lookup s.brand).isNone)) = none := by
      simp [sZero, alphas0]
    rw [comp_ai_outcome, hfind]
    simp [hden]
  · rfl

/-- C4, counterexample: `dist_to_zone` does not leave the receiver
unchanged — it stores the passed zone on the receiver (`self.demand_zone =
demand_zone`), so the store object after the call differs from the store
object before it. -/
theorem dist_to_zone_mutates_receiver :
    (sNear.dist_to_zone z1000).1 ≠ sNear := by
  intro h
  have := congrArg Stores.demand_zone h
  simp [Stores.dist_to_zone, sNear] at this

/-- C4 (amended): the core operations never modify the model-relevant
fields of any input — `dist_to_zone` and `get_store_revenue` preserve the
receiver's `name`, `brand`, `footage` and coordinates, and the single-zone
`comp_flow` preserves the zone's code, expenditure, classification and
coordinates (`comp_ai` and the list-form `comp_flow` assign nothing at all,
and are embedded as pure functions) — but each of the three methods caches
its argument or result on the receiver: `demand_zone`, `flow` and
`zone_flow` respectively are overwritten. -/
theorem core_ops_frame (s : Stores) (z : DemandZones) (m : FlowsMatrix)
    (zq : DemandZones) (stores : List Stores)
    (alphas betas : List (String × ℝ)) (p : DemandZones × List ℝ)
    (hp : comp_flow_zone zq stores alphas betas = .ok p) :
    ((s.dist_to_zone z).1.name = s.name
      ∧ (s.dist_to_zone z).1.brand = s.brand
      ∧ (s.dist_to_zone z).1.footage = s.footage
      ∧ (s.dist_to_zone z).1.easting = s.easting
      ∧ (s.dist_to_zone z).1.northing = s.northing
      ∧ (s.dist_to_zone z).1.flow = s.flow
      ∧ (s.dist_to_zone z).1.demand_zone = some z)
    ∧ ((s.get_store_revenue m).1.name = s.name
      ∧ (s.get_store_revenue m).1.brand = s.brand
      ∧ (s.get_store_revenue m).1.footage = s.footage
      ∧ (s.get_store_revenue m).1.easting = s.easting
      ∧ (s.get_store_revenue m).1.northing = s.northing
      ∧ (s.get_store_revenue m).1.demand_zone = s.demand_zone
      ∧ (s.get_store_revenue m).1.flow = some m)
    ∧ (p.1.OA11CD = zq.OA11CD ∧ p.1.expenditure = zq.expenditure
      ∧ p.1.oac = zq.oac ∧ p.1.c_easting = zq.c_easting
      ∧ p.1.c_northing = zq.c_northing ∧ p.1.zone_flow = some p.2) := by
  refine ⟨by simp [Stores.dist_to_zone], by simp [Stores.get_store_revenue],
    ?_⟩
  unfold comp_flow_zone at hp
  split at hp
  · exact absurd hp (by simp)
  · split at hp
    · exact absurd hp (by simp)
    · split at hp
      · exact absurd hp (by simp)
      · simp only [Except.ok.injEq] at hp
        subst hp
        simp

/-- Witness for C4's amended theorem: concrete instantiation whose
`comp_flow_zone` hypothesis is discharged at the one-zone, one-store
fixture. -/
theorem core_ops_frame_witness :
    (sNear.dist_to_zone z1000).1.name = sNear.name := by
  have hp : comp_flow_zone z1000 [sNear] alphas0 betas0 =
      .ok ({ z1000 with
              zone_flow := some (rowVal z1000 [sNear] alphas0 betas0) },
            rowVal z1000 [sNear] alphas0 betas0) :=
    comp_flow_zone_ok z1000 [sNear] alphas0 betas0
      (by intro t ht; simp at ht; subst ht; simp [sNear, alphas0])
      (by simp [z1000, betas0]) (by simp)
  exact (core_ops_frame sNear z1000 mTwo z1000 [sNear] alphas0 betas0 _
    hp).1.1

lemma comp_ai_sum_isSome_of_ok (z : DemandZones) (beta : ℝ)
    (alphas : List (String × ℝ)) (stores : List Stores) (a : ℝ)
    (h : comp_ai_sum z beta alphas stores = .ok a) :
    ∀ s ∈ stores, (alphas.lookup s.brand).isSome := by
  induction stores generalizing a with
  | nil => simp
  | cons s ss ih =>
    intro t ht
    rw [comp_ai_sum] at h
    cases hy : alphas.lookup s.brand with
    | none => rw [hy] at h; exact absurd h (by simp)
    | some y =>
      rw [hy] at h
      cases hs : comp_ai_sum z beta alphas ss with
      | error e => rw [hs] at h; exact absurd h (by simp)
      | ok b =>
        rcases List.mem_cons.mp ht with rfl | ht'
        · simp [hy]
        · exact ih b hs t ht'

lemma comp_ai_isSome_of_ok (z : DemandZones) (beta : ℝ)
    (alphas : List (String × ℝ)) (stores : List Stores) (Ai : ℝ)
    (h : z.comp_ai stores beta alphas = .ok Ai) :
    ∀ s ∈ stores, (alphas.lookup s.brand).isSome := by
  rw [DemandZones.comp_ai] at h
  cases hs : comp_ai_sum z beta alphas stores with
  | error e => rw [hs] at h; exact absurd h (by simp)
  | ok a => exact comp_ai_sum_isSome_of_ok z beta alphas stores a hs

lemma comp_ai_sum_cases (z : DemandZones) (beta : ℝ)
    (alphas : List (String × ℝ)) (stores : List Stores) :
    (∃ a, comp_ai_sum z beta alphas stores = .ok a)
      ∨ (∃ k, comp_ai_sum z beta alphas stores = .error (.keyError k)
          ∧ ∃ s ∈ stores, s.brand = k ∧ alphas.lookup k = none) := by
  induction stores with
  | nil => exact .inl ⟨0, rfl⟩
  | cons s ss ih =>
    cases hy : alphas.lookup s.brand with
    | none =>
      refine .inr ⟨s.brand, by simp [comp_ai_sum, hy], s, by simp, rfl, hy⟩
    | some y =>
      rcases ih with ⟨a, ha⟩ | ⟨k, hk, s', hs', hb, hn⟩
      · exact .inl ⟨(s.footage : ℝ) ^ y * Real.exp (-(beta * z.dist_to_store s)) + a,
          by simp [comp_ai_sum, hy, ha]⟩
      · exact .inr ⟨k, by simp [comp_ai_sum, hy, hk],
          s', List.mem_cons_of_mem _ hs', hb, hn⟩

lemma comp_ai_cases (z : DemandZones) (beta : ℝ)
    (alphas : List (String × ℝ)) (stores : List Stores)
    (hne : stores ≠ []) :
    (∃ Ai, z.comp_ai stores beta alphas = .ok Ai)
      ∨ (∃ k, z.comp_ai stores beta alphas = .error (.keyError k)
          ∧ ∃ s ∈ stores, s.brand = k ∧ alphas.lookup k = none) := by
  have hemp : stores.isEmpty = false := by
    cases stores with
    | nil => exact absurd rfl hne
    | cons a l => rfl
  rcases comp_ai_sum_cases z beta alphas stores with ⟨a, ha⟩ | ⟨k, hk, hprop⟩
  · exact .inl ⟨1 / a, by simp [DemandZones.comp_ai, ha, hemp]⟩
  · exact .inr ⟨k, by simp [DemandZones.comp_ai, hk], hprop⟩

/-- On a store list whose brands are all present, the inner flow loop
cannot fail (its lookups repeat the ones `comp_ai` already performed). -/
lemma zone_row_some (z : DemandZones) (Ai : ℝ) (stores : List Stores)
    (beta : ℝ) (alphas : List (String × ℝ))
    (h : ∀ s ∈ stores, (alphas.lookup s.brand).isSome) :
    ∃ row, zone_row z Ai stores beta alphas = .ok row :=
  ⟨_, zone_row_ok z Ai stores beta alphas h⟩

lemma flows_rows_missing (zones : List DemandZones) (stores : List Stores)
    (alphas betas : List (String × ℝ))
    (h : (zones ≠ [] ∧ ∃ s ∈ stores, alphas.lookup s.brand = none)
      ∨ (stores ≠ [] ∧ ∃ z ∈ zones, betas.lookup z.oac = none)) :
    ∃ k, flows_rows stores alphas betas zones = .error (.keyError k)
      ∧ ((∃ s ∈ stores, s.brand = k ∧ alphas.lookup k = none)
        ∨ (∃ z ∈ zones, z.oac = k ∧ betas.lookup k = none)) := by
  have hsne : stores ≠ [] := by
    rcases h with ⟨_, s, hs, _⟩ | ⟨hs, _⟩
    · exact List.ne_nil_of_mem hs
    · exact hs
  induction zones with
  | nil =>
    rcases h with ⟨hzne, _⟩ | ⟨_, z, hz, _⟩
    · exact absurd rfl hzne
    · exact absurd hz (by simp)
  | cons z zs ih =>
    cases hb : betas.lookup z.oac with
    | none =>
      exact ⟨z.oac, by simp [flows_rows, hb], .inr ⟨z, by simp, rfl, hb⟩⟩
    | some beta =>
      rcases comp_ai_cases z beta alphas stores hsne with
        ⟨Ai, hAi⟩ | ⟨k, hk, hprop⟩
      · -- all brands present; the missing parameter must be an oac in zs
        have hpres := comp_ai_isSome_of_ok z beta alphas stores Ai hAi
        have h' : (zs ≠ [] ∧ ∃ s ∈ stores, alphas.lookup s.brand = none)
            ∨ (stores ≠ [] ∧ ∃ z' ∈ zs, betas.lookup z'.oac = none) := by
          rcases h with ⟨_, s, hs, hnone⟩ | ⟨_, z', hz', hznone⟩
          · exact absurd (hpres s hs) (by simp [hnone])
          · rcases List.mem_cons.mp hz' with rfl | hz''
            · exact absurd hznone (by simp [hb])
            · exact .inr ⟨hsne, z', hz'', hznone⟩
        obtain ⟨row, hrow⟩ := zone_row_some z Ai stores beta alphas hpres
        obtain ⟨k, hk, hprop⟩ := ih h'
        refine ⟨k, by simp [flows_rows, hb, hAi, hrow, hk], ?_⟩
        rcases hprop with hl | ⟨z', hz', ho⟩
        · exact .inl hl
        · exact .inr ⟨z', List.mem_cons_of_mem _ hz', ho⟩
      · exact ⟨k, by simp [flows_rows, hb, hk], .inl hprop⟩

/-- C5: if some store's brand has no attractiveness entry (and there is at
least one zone to process), or some zone's classification has no deterrence
entry (and the store list is nonempty), then `comp_flow` fails with a
`KeyError` naming a genuinely missing key — the Python realization of the
"missing parameter" error — and returns no matrix, never a silently
defaulted one. -/
theorem comp_flow_missing_parameter (zones : List DemandZones)
    (stores : List Stores) (alphas betas : List (String × ℝ))
    (h : (zones ≠ [] ∧ ∃ s ∈ stores, alphas.lookup s.brand = none)
      ∨ (stores ≠ [] ∧ ∃ z ∈ zones, betas.lookup z.oac = none)) :
    ∃ k, DemandZones.comp_flow zones stores alphas betas
        = .error (.keyError k)
      ∧ ((∃ s ∈ stores, s.brand = k ∧ alphas.lookup k = none)
        ∨ (∃ z ∈ zones, z.oac = k ∧ betas.lookup k = none)) := by
  obtain ⟨k, hk, hprop⟩ := flows_rows_missing zones stores alphas betas h
  exact ⟨k, by simp [DemandZones.comp_flow, hk], hprop⟩

/-- Test fixture: a store whose brand has no attractiveness entry. -/
def sOrphan : Stores :=
  { name := "S9", brand := "NoBrand", footage := 1,
    easting := 0, northing := 0 }

/-- Witness for C5: with a store of an unknown brand, `comp_flow` fails
with a `KeyError` naming a missing parameter. -/
theorem comp_flow_missing_parameter_witness :
    ∃ k, DemandZones.comp_flow [z1000] [sOrphan] alphas0 betas0
        = .error (.keyError k)
      ∧ ((∃ s ∈ [sOrphan], s.brand = k ∧ alphas0.lookup k = none)
        ∨ (∃ z ∈ [z1000], z.oac = k ∧ betas0.lookup k = none)) :=
  comp_flow_missing_parameter [z1000] [sOrphan] alphas0 betas0
    (.inl ⟨by simp, sOrphan, by simp, by simp [sOrphan, alphas0]⟩)

/-- C6: in every matrix `comp_flow` produces, the `Store_Revenue` entry of
store column `i` equals the sum over all zone rows of that column's flow,
and `get_store_revenue` returns exactly that precomputed entry (store names
assumed unique, as the data model requires). -/
theorem store_revenue_additivity (zones : List DemandZones)
    (stores : List Stores) (alphas betas : List (String × ℝ))
    (hbr : ∀ s ∈ stores, (alphas.lookup s.brand).isSome)
    (hoc : ∀ z ∈ zones, (betas.lookup z.oac).isSome)
    (hne : stores ≠ [])
    (hnodup : (stores.map Stores.name).Nodup)
    (i : ℕ) (hi : i < stores.length) :
    ∃ M, DemandZones.comp_flow zones stores alphas betas = .ok M ∧
      M.revenue_row.getD i 0
        = (M.zone_rows.map (fun r => r.2.getD i 0)).sum ∧
      ((stores.get ⟨i, hi⟩).get_store_revenue M).2
        = M.revenue_row.getD i 0 := by
  refine ⟨_, comp_flow_ok zones stores alphas betas hbr hoc hne, ?_, ?_⟩
  · rw [colSums_getD (zones.map (fun z => rowVal z stores alphas betas))
      stores.length
      (by
        intro r hr
        obtain ⟨z, _, rfl⟩ := List.mem_map.mp hr
        exact rowVal_length z stores alphas betas) i]
    rw [List.zip_map', List.map_map, List.map_map]
    rfl
  · simp only [Stores.get_store_revenue, FlowsMatrix.locRevenue]
    have hidx : (stores.map Stores.name).indexOf
        ((stores.get ⟨i, hi⟩).name) = i := by
      have hlen : i < (stores.map Stores.name).length := by simpa using hi
      have hg : (stores.map Stores.name).get ⟨i, hlen⟩
          = (stores.get ⟨i, hi⟩).name := by
        simp [List.get_eq_getElem]
      rw [← hg]
      exact List.get_indexOf hnodup ⟨i, hlen⟩
    rw [hidx]

/-- Witness for C6 at a one-zone, two-store fixture: the first column's
revenue entry is the column sum and `get_store_revenue` returns it. -/
theorem store_revenue_additivity_witness :
    ∃ M, DemandZones.comp_flow [z1000] [sNear, sFar] alphas0 betas0
        = .ok M ∧
      M.revenue_row.getD 0 0
        = (M.zone_rows.map (fun r => r.2.getD 0 0)).sum ∧
      (sNear.get_store_revenue M).2 = M.revenue_row.getD 0 0 :=
  store_revenue_additivity [z1000] [sNear, sFar] alphas0 betas0
    (by
      intro t ht
      rcases List.mem_cons.mp ht with rfl | ht'
      · simp [sNear, alphas0]
      · simp at ht'; subst ht'; simp [sFar, alphas0])
    (by intro z hz; simp at hz; subst hz; simp [z1000, betas0])
    (by simp)
    (by simp [sNear, sFar])
    0 (by norm_num)

/-- Core share inequality: with positive expenditure `O`, positive own
weight `W`, positive competing supply `R` and a strictly smaller decay
factor `E' < E`, the allocated share strictly drops. -/
lemma share_strict_mono (O W E E' R : ℝ) (hO : 0 < O) (hW : 0 < W)
    (hE' : 0 < E') (hEE : E' < E) (hR : 0 < R) :
    1 / (W * E' + R) * O * W * E' < 1 / (W * E + R) * O * W * E := by
  have hD' : 0 < W * E' + R := by positivity
  have hD : 0 < W * E + R := by
    have : 0 < W * E := mul_pos hW (hE'.trans hEE)
    linarith
  have eL : 1 / (W * E' + R) * O * W * E' = O * (W * E') / (W * E' + R) := by
    ring
  have eR : 1 / (W * E + R) * O * W * E = O * (W * E) / (W * E + R) := by
    ring
  rw [eL, eR, div_lt_div_iff₀ hD' hD]
  nlinarith [mul_pos (mul_pos hO hW) hR, sub_pos.mpr hEE,
    mul_pos (mul_pos (mul_pos hO hW) hR) (sub_pos.mpr hEE)]

/-- C7, counterexample to the claim as stated: with a single store (no
competing supply held fixed, which the claim's quantification permits),
moving the store from 1 km to 2 km leaves the recomputed flow unchanged at
the full expenditure 1000 — the balancing factor absorbs the distance
change entirely, so the flow does not strictly decrease. -/
theorem flow_not_strict_anti_without_competition :
    z1000.dist_to_store sNear < z1000.dist_to_store sFar
      ∧ rowHead (comp_flow_zone z1000 [sNear] alphas0 betas0) = 1000
      ∧ rowHead (comp_flow_zone z1000 [sFar] alphas0 betas0) = 1000 := by
  refine ⟨by rw [dist_z1000_sNear, dist_z1000_sFar]; norm_num, ?_, ?_⟩
  · rw [comp_flow_zone_ok z1000 [sNear] alphas0 betas0
      (by intro t ht; simp at ht; subst ht; simp [sNear, alphas0])
      (by simp [z1000, betas0]) (by simp)]
    have hW : ((sNear.footage : ℝ)) ^ (alf alphas0 sNear.brand) = 1 := by
      simp [sNear, alphas0, alf]
    simp only [rowHead, rowVal, List.map_cons, List.map_nil, flow_cell,
      comp_ai_denom, store_term, List.sum_cons, List.sum_nil, add_zero,
      List.getD]
    rw [hW]
    have hE := Real.exp_pos
      (-(alf betas0 z1000.oac * z1000.dist_to_store sNear))
    have hO : z1000.expenditure = 1000 := rfl
    rw [hO]
    field_simp
  · rw [comp_flow_zone_ok z1000 [sFar] alphas0 betas0
      (by intro t ht; simp at ht; subst ht; simp [sFar, alphas0])
      (by simp [z1000, betas0]) (by simp)]
    have hW : ((sFar.footage : ℝ)) ^ (alf alphas0 sFar.brand) = 1 := by
      simp [sFar, alphas0, alf]
    simp only [rowHead, rowVal, List.map_cons, List.map_nil, flow_cell,
      comp_ai_denom, store_term, List.sum_cons, List.sum_nil, add_zero,
      List.getD]
    rw [hW]
    have hE := Real.exp_pos
      (-(alf betas0 z1000.oac * z1000.dist_to_store sFar))
    have hO : z1000.expenditure = 1000 := rfl
    rw [hO]
    field_simp

/-- C7 (amended): holding the zone's expenditure (positive), the deterrence
coefficient (positive), the attractiveness exponents, and every other
store's attributes fixed — and provided the store itself has positive
floorspace and the OTHER stores contribute a positive balancing-denominator
remainder (some competing supply exists) — strictly increasing the store's
distance strictly decreases its flow in the row recomputed by the
single-zone `comp_flow`, the balancing factor being recomputed both
times. -/
theorem flow_strict_anti_in_distance (z : DemandZones) (s s' : Stores)
    (rest : List Stores) (alphas betas : List (String × ℝ)) (beta y : ℝ)
    (hbeta : betas.lookup z.oac = some beta) (hbpos : 0 < beta)
    (hy : alphas.lookup s.brand = some y)
    (hrest : ∀ t ∈ rest, (alphas.lookup t.brand).isSome)
    (hbrand : s'.brand = s.brand) (hfoot : s'.footage = s.footage)
    (hO : 0 < z.expenditure) (hfpos : 0 < s.footage)
    (hR : 0 < comp_ai_denom z rest beta (alf alphas))
    (hd : z.dist_to_store s < z.dist_to_store s') :
    rowHead (comp_flow_zone z (s' :: rest) alphas betas)
      < rowHead (comp_flow_zone z (s :: rest) alphas betas) := by
  have hbr1 : ∀ t ∈ s :: rest, (alphas.lookup t.brand).isSome := by
    intro t ht
    rcases List.mem_cons.mp ht with rfl | ht'
    · simp [hy]
    · exact hrest t ht'
  have hbr2 : ∀ t ∈ s' :: rest, (alphas.lookup t.brand).isSome := by
    intro t ht
    rcases List.mem_cons.mp ht with rfl | ht'
    · simp [hbrand, hy]
    · exact hrest t ht'
  rw [comp_flow_zone_ok z (s :: rest) alphas betas hbr1 (by simp [hbeta])
      (by simp),
    comp_flow_zone_ok z (s' :: rest) alphas betas hbr2 (by simp [hbeta])
      (by simp)]
  simp only [rowHead, rowVal, List.map_cons, List.getD]
  have hba : alf betas z.oac = beta := by simp [alf, hbeta]
  have hya : alf alphas s.brand = y := by simp [alf, hy]
  have hya' : alf alphas s'.brand = y := by simp [alf, hbrand, hy]
  have hden : ∀ t : Stores, comp_ai_denom z (t :: rest) beta (alf alphas)
      = (t.footage : ℝ) ^ (alf alphas t.brand)
          * Real.exp (-(beta * z.dist_to_store t))
        + comp_ai_denom z rest beta (alf alphas) := by
    intro t
    simp [comp_ai_denom, store_term]
  simp only [flow_cell, hba, hden, hya, hya', hfoot, hbrand]
  have hWpos : 0 < ((s.footage : ℝ)) ^ y :=
    Real.rpow_pos_of_pos (by exact_mod_cast hfpos) y
  have hEpos : 0 < Real.exp (-(beta * z.dist_to_store s')) :=
    Real.exp_pos _
  have hEE : Real.exp (-(beta * z.dist_to_store s'))
      < Real.exp (-(beta * z.dist_to_store s)) := by
    apply Real.exp_lt_exp.mpr
    have := mul_lt_mul_of_pos_left hd hbpos
    linarith
  have key := share_strict_mono z.expenditure ((s.footage : ℝ) ^ y)
    (Real.exp (-(beta * z.dist_to_store s)))
    (Real.exp (-(beta * z.dist_to_store s')))
    (comp_ai_denom z rest beta (alf alphas)) hO hWpos hEpos hEE hR
  calc 1 / ((s.footage : ℝ) ^ y * Real.exp (-(beta * z.dist_to_store s'))
          + comp_ai_denom z rest beta (alf alphas)) * z.expenditure
        * (s.footage : ℝ) ^ y * Real.exp (-(beta * z.dist_to_store s'))
      = 1 / ((s.footage : ℝ) ^ y * Real.exp (-(beta * z.dist_to_store s'))
          + comp_ai_denom z rest beta (alf alphas)) * z.expenditure
        * (s.footage : ℝ) ^ y
        * Real.exp (-(beta * z.dist_to_store s')) := by ring
    _ < _ := key
    _ = 1 / ((s.footage : ℝ) ^ y * Real.exp (-(beta * z.dist_to_store s))
          + comp_ai_denom z rest beta (alf alphas)) * z.expenditure
        * (s.footage : ℝ) ^ y
        * Real.exp (-(beta * z.dist_to_store s)) := by ring

/-- Witness for C7's amended theorem: zone at the origin, the varying store
moved from 1 km (`sNear`) to 2 km (`sFar`), with a second unit store 1 km
away providing the competing supply. -/
theorem flow_strict_anti_in_distance_witness :
    rowHead (comp_flow_zone z1000 [sFar, sNear] alphas0 betas0)
      < rowHead (comp_flow_zone z1000 [sNear, sNear] alphas0 betas0) := by
  have happly := flow_strict_anti_in_distance z1000 sNear sFar [sNear]
    alphas0 betas0 1 1
    (by simp [z1000, betas0]) (by norm_num)
    (by simp [sNear, alphas0])
    (by intro t ht; simp at ht; subst ht; simp [sNear, alphas0])
    (by simp [sNear, sFar]) (by simp [sNear, sFar])
    (by simp [z1000]) (by simp [sNear])
    (by
      simp only [comp_ai_denom, store_term, List.map_cons, List.map_nil,
        List.sum_cons, List.sum_nil, add_zero]
      have hW : ((sNear.footage : ℝ)) ^ (alf alphas0 sNear.brand) = 1 := by
        simp [sNear, alphas0, alf]
      rw [hW, one_mul]
      exact Real.exp_pos _)
    (by rw [dist_z1000_sNear, dist_z1000_sFar]; norm_num)
  exact happly

/-- A successful `comp_flow` cell in closed form: zone row `i`, store
column `j` holds `flow_cell` of the `i`-th zone and `j`-th store. -/
lemma mCell_ok (zones : List DemandZones) (stores : List Stores)
    (alphas betas : List (String × ℝ))
    (hbr : ∀ s ∈ stores, (alphas.lookup s.brand).isSome)
    (hoc : ∀ z ∈ zones, (betas.lookup z.oac).isSome)
    (hne : stores ≠ [])
    (i j : ℕ) (hi : i < zones.length) (hj : j < stores.length) :
    mCell (DemandZones.comp_flow zones stores alphas betas) i j
      = flow_cell (zones.get ⟨i, hi⟩) stores
          (alf betas (zones.get ⟨i, hi⟩).oac) (alf alphas)
          (stores.get ⟨j, hj⟩) := by
  rw [comp_flow_ok zones stores alphas betas hbr hoc hne]
  simp only [mCell]
  rw [List.zip_map', getD_map_lt _ _ i hi]
  show (rowVal (zones.get ⟨i, hi⟩) stores alphas betas).getD j 0 = _
  rw [rowVal, getD_map_lt _ _ j hj]

/-- C8, counterexample to the "zero only in the limiting case" clause: a
zone with zero expenditure (a valid, non-negative input) produces a zero
flow cell even though the store's floorspace is 1 and the distance is a
finite 1 km. -/
theorem flow_cell_zero_at_zero_expenditure :
    mCell (DemandZones.comp_flow [zPoor] [sNear] alphas0 betas0) 0 0 = 0
      ∧ sNear.footage = 1 ∧ zPoor.dist_to_store sNear = 1 := by
  refine ⟨?_, rfl, dist_eval _ _ 1 (by norm_num) (by norm_num [zPoor, sNear])⟩
  rw [mCell_ok [zPoor] [sNear] alphas0 betas0
    (by intro t ht; simp at ht; subst ht; simp [sNear, alphas0])
    (by intro t ht; simp at ht; subst ht; simp [zPoor, betas0])
    (by simp) 0 0 (by norm_num) (by norm_num)]
  simp [flow_cell, zPoor]

/-- C8 (amended): for valid inputs (non-negative expenditures, non-negative
floorspaces, positive balancing-factor denominator at every zone) every
cell of the matrix `comp_flow` produces is non-negative, and a cell is zero
only when the zone's expenditure is zero or the store's floorspace is zero
— infinite distance cannot occur in exact arithmetic, and zero expenditure
is an additional (valid) source of zero cells the original claim
omitted. -/
theorem comp_flow_cells_nonneg (zones : List DemandZones)
    (stores : List Stores) (alphas betas : List (String × ℝ))
    (hbr : ∀ s ∈ stores, (alphas.lookup s.brand).isSome)
    (hoc : ∀ z ∈ zones, (betas.lookup z.oac).isSome)
    (hD : ∀ z ∈ zones,
      0 < comp_ai_denom z stores (alf betas z.oac) (alf alphas))
    (hexp : ∀ z ∈ zones, 0 ≤ z.expenditure)
    (hfoot : ∀ s ∈ stores, 0 ≤ s.footage)
    (i j : ℕ) (hi : i < zones.length) (hj : j < stores.length) :
    0 ≤ mCell (DemandZones.comp_flow zones stores alphas betas) i j
      ∧ (mCell (DemandZones.comp_flow zones stores alphas betas) i j = 0 →
          (zones.get ⟨i, hi⟩).expenditure = 0
            ∨ (stores.get ⟨j, hj⟩).footage = 0) := by
  have hne : stores ≠ [] := by
    intro h
    rw [h] at hj
    simp at hj
  rw [mCell_ok zones stores alphas betas hbr hoc hne i j hi hj]
  have hzmem : zones.get ⟨i, hi⟩ ∈ zones := List.get_mem zones i hi
  have hsmem : stores.get ⟨j, hj⟩ ∈ stores := List.get_mem stores j hj
  have hDz := hD _ hzmem
  have hOz := hexp _ hzmem
  have hfs : (0 : ℝ) ≤ ((stores.get ⟨j, hj⟩).footage : ℝ) := by
    exact_mod_cast hfoot _ hsmem
  have hinv : 0 < 1 / comp_ai_denom (zones.get ⟨i, hi⟩) stores
      (alf betas (zones.get ⟨i, hi⟩).oac) (alf alphas) :=
    one_div_pos.mpr hDz
  constructor
  · exact mul_nonneg (mul_nonneg (mul_nonneg hinv.le hOz)
      (Real.rpow_nonneg hfs _)) (Real.exp_pos _).le
  · intro h0
    rw [flow_cell] at h0
    rcases mul_eq_zero.mp h0 with h1 | hE0
    · rcases mul_eq_zero.mp h1 with h2 | hW0
      · rcases mul_eq_zero.mp h2 with h3 | hO0
        · exact absurd h3 (ne_of_gt hinv)
        · exact .inl hO0
      · right
        have := (Real.rpow_eq_zero_iff_of_nonneg hfs).mp hW0
        exact_mod_cast this.1
    · exact absurd hE0 (Real.exp_ne_zero _)

/-- Witness for C8's amended theorem at the one-zone, one-store fixture:
the cell is non-negative, and were it zero the expenditure or floorspace
would be zero. -/
theorem comp_flow_cells_nonneg_witness :
    0 ≤ mCell (DemandZones.comp_flow [z1000] [sNear] alphas0 betas0) 0 0
      ∧ (mCell (DemandZones.comp_flow [z1000] [sNear] alphas0 betas0) 0 0
            = 0 →
          z1000.expenditure = 0 ∨ sNear.footage = 0) :=
  comp_flow_cells_nonneg [z1000] [sNear] alphas0 betas0
    (by intro t ht; simp at ht; subst ht; simp [sNear, alphas0])
    (by intro t ht; simp at ht; subst ht; simp [z1000, betas0])
    (by
      intro z hz; simp at hz; subst hz
      simp only [comp_ai_denom, store_term, List.map_cons, List.map_nil,
        List.sum_cons, List.sum_nil, add_zero]
      have hW : ((sNear.footage : ℝ)) ^ (alf alphas0 sNear.brand) = 1 := by
        simp [sNear, alphas0, alf]
      rw [hW, one_mul]
      exact Real.exp_pos _)
    (by intro z hz; simp at hz; subst hz; simp [z1000])
    (by intro t ht; simp at ht; subst ht; simp [sNear])
    0 0 (by norm_num) (by norm_num)

end RetailModel

end
